import Mathlib

/-!
Shallow embedding of the gdb-plug plugin manager (gdb-plug.py): the
configuration resolver (PlugInitConfig) and the plugin registry
(PlugManager), together with theorems settling the frozen claims.

Python dynamic values that flow through the autoload machinery are
modelled by PyVal (None, bool, int, str); filesystem and subprocess
effects are modelled by an oracle structure Env; machine state of the
registry dict is an association list with Python dict update semantics.
-/

/-- Model of the Python values that reach the autoload machinery:
None, bool, int or str. -/
inductive PyVal
| none : PyVal
| bool : Bool → PyVal
| int : Int → PyVal
| str : String → PyVal
deriving DecidableEq, Repr

/-- Python truthiness of a PyVal, as used by the or operator. -/
def PyVal.truthy : PyVal → Bool
| PyVal.none => false
| PyVal.bool b => b
| PyVal.int n => n != 0
| PyVal.str s => s != ""

/-- Whether the value is Python None. -/
def PyVal.isNone : PyVal → Bool
| PyVal.none => true
| _ => false

/-- Python x or y on PyVal: the first operand when truthy, else the second. -/
def pyOr (a b : PyVal) : PyVal :=
  if a.truthy then a else b

/-- Lift an optional string (os.getenv result) to a PyVal. -/
def pyOfOpt : Option String → PyVal
| some s => PyVal.str s
| Option.none => PyVal.none

/-- Python str.lower restricted to ASCII letters, which is all the
policy tokens use. -/
def pyLower (s : String) : String :=
  String.mk (s.toList.map Char.toLower)

/-- Membership of a string in a list, Python in on a list of str. -/
def strIn (x : String) : List String → Bool
| [] => false
| y :: ys => x == y || strIn x ys

/-- Python c in s for a single character. -/
def pyContains (s : String) (c : Char) : Bool :=
  s.toList.contains c

/-- Helper for pySplitChar, accumulating the current piece reversed. -/
def splitAux (c : Char) : List Char → List Char → List String
| [], acc => [String.mk acc.reverse]
| x :: xs, acc =>
  if x == c then String.mk acc.reverse :: splitAux c xs []
  else splitAux c xs (x :: acc)

/-- Python s.split(sep) for a one-character separator: keeps empty
pieces, and the empty string splits to a singleton empty piece. -/
def pySplitChar (s : String) (c : Char) : List String :=
  splitAux c s.toList []

/-- Does the character list start with the given pattern. -/
def leadEq : List Char → List Char → Bool
| [], _ => true
| _ :: _, [] => false
| p :: ps, c :: cs => p == c && leadEq ps cs

/-- Does s start with pat. -/
def strLead (s pat : String) : Bool :=
  leadEq pat.toList s.toList

/-- Does s end with pat. -/
def strEndsIn (s pat : String) : Bool :=
  leadEq pat.toList.reverse s.toList.reverse

/-- Python s.rstrip applied with the slash character: drop every
trailing slash. -/
def rstripSlash (s : String) : String :=
  String.mk (s.toList.reverse.dropWhile (fun c => c == '/')).reverse

/-- Drop the last n characters of a string, Python s[:-n] for n > 0. -/
def dropTail (s : String) (n : Nat) : String :=
  String.mk (s.toList.take (s.toList.length - n))

/-- os.path.join for two POSIX components, as used by the manager. -/
def joinPath (a b : String) : String :=
  if strLead b "/" then b
  else if a == "" || strEndsIn a "/" then a ++ b
  else a ++ "/" ++ b

/-- os.path.expanduser: a leading tilde component is replaced by the
home directory of the user. -/
def expanduser (userHome p : String) : String :=
  if p == "~" then userHome
  else if strLead p "~/" then userHome ++ String.mk (p.toList.drop 1)
  else p

/-- Replace the first placeholder pair of braces in the character list
by the argument. -/
def fmtReplace (arg : String) : List Char → List Char
| [] => []
| [c] => [c]
| c1 :: c2 :: rest =>
  if c1 == '\x7b' && c2 == '\x7d' then arg.toList ++ rest
  else c1 :: fmtReplace arg (c2 :: rest)

/-- Python tmpl.format(arg) for a template holding at most one empty
brace placeholder, the only shape the manager uses. -/
def pyFormat1 (tmpl arg : String) : String :=
  String.mk (fmtReplace arg tmpl.toList)

/-- The resolved process-wide defaults, PlugInitConfig in the source. -/
structure PlugInitConfig where
  home : String
  autoload : PyVal
  uri_format : String
deriving DecidableEq, Repr

/-- first_not_none over optional strings: the first present value. -/
def first_not_none_opt : List (Option String) → Option String
| [] => Option.none
| x :: xs =>
  match x with
  | some v => some v
  | Option.none => first_not_none_opt xs

/-- first_not_none over PyVal arguments: the first value that is not
Python None. -/
def first_not_none_py : List PyVal → PyVal
| [] => PyVal.none
| x :: xs => if x.isNone then first_not_none_py xs else x

/-- PlugInitConfig construction. envHome and envAutoload model
os.getenv of GDB_PLUG_HOME and GDB_PLUG_AUTOLOAD; userHome models the
home directory consulted by os.path.expanduser. The source resolves
each setting with first_not_none over, in order: the environment
variable, the constructor argument, the built-in fallback. -/
def PlugInitConfig.build (envHome envAutoload : Option String)
    (userHome : String) (home : Option String) (autoload : PyVal)
    (uriFormatArg : Option String) : PlugInitConfig :=
  { home := (first_not_none_opt [envHome, home]).getD
      (expanduser userHome "~/.config/gdb/plug"),
    autoload := first_not_none_py
      [pyOfOpt envAutoload, autoload, PyVal.bool true],
    uri_format := (first_not_none_opt [uriFormatArg]).getD
      "https://git::@github.com/\x7b\x7d.git" }

/-- is_local_plug: the regex match of a leading drive letter plus colon,
or a leading percent, tilde or slash character. -/
def is_local_plug (repo : String) : Bool :=
  match repo.toList with
  | c1 :: c2 :: _ => (c1.isAlpha && c2 == ':') || c1 == '%' || c1 == '~' || c1 == '/'
  | [c1] => c1 == '%' || c1 == '~' || c1 == '/'
  | [] => false

/-- The local filesystem-path shape in the words of the specification:
a single-letter drive prefix followed by a colon, or a leading percent,
tilde or slash. Stated separately from is_local_plug to compare the
source classifier against the specified shape. -/
def localShapeSpec (repo : String) : Bool :=
  (match repo.toList with
   | c1 :: c2 :: _ => c1.isAlpha && c2 == ':'
   | _ => false)
  ||
  (match repo.toList with
   | c1 :: _ => c1 == '%' || c1 == '~' || c1 == '/'
   | [] => false)

/-- infer_name: the final slash-separated segment of repo, with one
trailing .git suffix stripped. -/
def infer_name (repo : String) : String :=
  let bn := (pySplitChar repo '/').getLastD repo
  if strEndsIn bn ".git" then dropTail bn 4 else bn

/-- The directory and uri segment returned by infer_directory_uri. -/
structure DirUri where
  uri : Option String
  directory : String
deriving DecidableEq, Repr

/-- infer_directory_uri: local repos give a null uri and the rstripped
path; remote repos keep a colon-bearing string verbatim as uri, expand
an owner-slash-name shorthand through uri_format, and anything without
colon and slash raises ValueError. -/
def infer_directory_uri (cfg : PlugInitConfig) (name repo : String) :
    Except String DirUri :=
  if is_local_plug repo then
    Except.ok { uri := Option.none, directory := rstripSlash repo }
  else if pyContains repo ':' then
    Except.ok { uri := some repo, directory := joinPath cfg.home name }
  else if pyContains repo '/' then
    Except.ok { uri := some (pyFormat1 cfg.uri_format repo),
                directory := joinPath cfg.home name }
  else
    Except.error ("Invalid argument: " ++ repo)

/-- One step of the string-policy loop body of infer_bool_bygroup: the
two sequential membership tests the source applies to each token. -/
def boolGroupStep (groups : List String) (ret : Bool) (x : String) : Bool :=
  let ret1 := if strIn (pyLower x) (["all", "true", "1"] ++ groups) then true else ret
  if strIn (pyLower x) (["none", "false", "0"] ++ groups.map (fun g => "-" ++ g))
  then false else ret1

/-- infer_bool_bygroup: bools pass through, ints coerce by truthiness,
strings split on commas and fold the token loop from False, and any
other value gives False. -/
def infer_bool_bygroup (value : PyVal) (groups : List String) : Bool :=
  match value with
  | PyVal.bool b => b
  | PyVal.int n => n != 0
  | PyVal.str s => (pySplitChar s ',').foldl (boolGroupStep groups) false
  | PyVal.none => false

/-- The fully resolved plugin record stored in the registry. -/
structure PlugConfig where
  name : String
  repo : String
  autoload : Bool
  uri : Option String
  directory : String
deriving DecidableEq, Repr

/-- The groups value after Python groups or an empty list: an absent
or empty argument becomes the empty list. -/
def resolvedGroups (groupsArg : Option (List String)) : List String :=
  match groupsArg with
  | some gs => if gs.isEmpty then [] else gs
  | Option.none => []

/-- The name value after Python name or infer_name: an absent or empty
argument falls back to the inferred name. -/
def resolvedName (repo : String) (nameArg : Option String) : String :=
  match nameArg with
  | some n => if n == "" then infer_name repo else n
  | Option.none => infer_name repo

/-- infer_config: resolve groups and name through Python or, compute
the autoload flag from the raw value (explicit argument or default via
or) and the tag list name plus groups, then attach the directory and
uri segment, propagating its ValueError. -/
def infer_config (cfg : PlugInitConfig) (repo : String)
    (nameArg : Option String) (autoloadArg : PyVal)
    (groupsArg : Option (List String)) : Except String PlugConfig :=
  let groups := resolvedGroups groupsArg
  let name := resolvedName repo nameArg
  let auto := infer_bool_bygroup (pyOr autoloadArg cfg.autoload) (name :: groups)
  match infer_directory_uri cfg name repo with
  | Except.error e => Except.error e
  | Except.ok du =>
    Except.ok { name := name, repo := repo, autoload := auto,
                uri := du.uri, directory := du.directory }

/-- The plug_infos dict of PlugManager: an association list with Python
dict update semantics, keys unique by construction. -/
def Registry : Type := List (String × PlugConfig)

/-- Lookup in the registry dict. -/
def dictGet : List (String × PlugConfig) → String → Option PlugConfig
| [], _ => Option.none
| (k1, v1) :: rest, k => if k1 == k then some v1 else dictGet rest k

/-- Python dict assignment d[k] = v: replace the value in place when
the key is present, else append the new binding at the end. -/
def dictSet : List (String × PlugConfig) → String → PlugConfig →
    List (String × PlugConfig)
| [], k, v => [(k, v)]
| (k1, v1) :: rest, k, v =>
  if k1 == k then (k1, v) :: rest else (k1, v1) :: dictSet rest k v

/-- PlugManager.plug: resolve the declaration and store the record
under its resolved name; a resolution error propagates before the dict
assignment happens. -/
def plug (cfg : PlugInitConfig) (reg : List (String × PlugConfig))
    (repo : String) (nameArg : Option String) (autoloadArg : PyVal)
    (groupsArg : Option (List String)) :
    Except String (List (String × PlugConfig)) :=
  match infer_config cfg repo nameArg autoloadArg groupsArg with
  | Except.error e => Except.error e
  | Except.ok c => Except.ok (dictSet reg c.name c)

/-- The observable plug_infos state after a plug call that may raise:
on an exception the dict assignment never ran, so the state is the old
registry. -/
def registryAfter (cfg : PlugInitConfig) (reg : List (String × PlugConfig))
    (repo : String) (nameArg : Option String) (autoloadArg : PyVal)
    (groupsArg : Option (List String)) : List (String × PlugConfig) :=
  match plug cfg reg repo nameArg autoloadArg groupsArg with
  | Except.ok r => r
  | Except.error _ => reg

/-- Oracle for the external effects the manager drives: filesystem
existence, git clone and pull results keyed by uri and directory, and
whether sourcing a given file succeeds. -/
structure Env where
  pathExists : String → Bool
  cloneOk : String → Bool
  pullOk : String → Bool
  sourceOk : String → Bool

/-- The observable per-name outcomes of one update batch. -/
inductive UpdateEvent
| notRegistered : String → UpdateEvent
| localNoop : UpdateEvent
| installed : String → UpdateEvent
| installFailed : String → UpdateEvent
| updated : String → UpdateEvent
| updateFailed : String → UpdateEvent
deriving DecidableEq, Repr

/-- The body of the PlugManager.update loop: unknown names continue,
a local plugin returns from the whole call, a missing directory clones,
a present directory pulls, and clone or pull failures continue. -/
def updateGo (reg : List (String × PlugConfig)) (env : Env) :
    List String → List UpdateEvent
| [] => []
| n :: rest =>
  match dictGet reg n with
  | Option.none => UpdateEvent.notRegistered n :: updateGo reg env rest
  | some p =>
    match p.uri with
    | Option.none => [UpdateEvent.localNoop]
    | some u =>
      if env.pathExists p.directory then
        (if env.pullOk p.directory then UpdateEvent.updated n
         else UpdateEvent.updateFailed n) :: updateGo reg env rest
      else
        (if env.cloneOk u then UpdateEvent.installed n
         else UpdateEvent.installFailed n) :: updateGo reg env rest

/-- The name list update iterates: Python names or keys, where an
absent or empty argument falls back to every registered key. -/
def updateNames (reg : List (String × PlugConfig))
    (namesArg : Option (List String)) : List String :=
  match namesArg with
  | some ns => if ns.isEmpty then reg.map Prod.fst else ns
  | Option.none => reg.map Prod.fst

/-- PlugManager.update as a whole batch call. -/
def update (reg : List (String × PlugConfig)) (env : Env)
    (namesArg : Option (List String)) : List UpdateEvent :=
  updateGo reg env (updateNames reg namesArg)

/-- The ordered candidate initialization files probed by load. -/
def init_files (dir name : String) : List String :=
  [joinPath dir (name ++ ".py"),
   joinPath dir (name ++ ".gdb"),
   joinPath dir "main.py",
   joinPath dir "main.gdb",
   joinPath dir ".gdbinit",
   joinPath dir ("gdbinit-" ++ pyLower name ++ ".py")]

/-- The probing loop of load: skip absent files, source an existing
one, stop at the first success, keep probing after a failure. Returns
the loaded flag together with the list of files actually sourced. -/
def loadProbe (env : Env) : List String → Bool × List String
| [] => (false, [])
| f :: rest =>
  if env.pathExists f then
    if env.sourceOk f then (true, [f])
    else
      let r := loadProbe env rest
      (r.1, f :: r.2)
  else loadProbe env rest

/-- PlugManager.load with its sourcing trace: unknown name or absent
directory give false with no sourcing, else the probe loop runs. -/
def loadRun (reg : List (String × PlugConfig)) (env : Env)
    (name : String) : Bool × List String :=
  match dictGet reg name with
  | Option.none => (false, [])
  | some p =>
    if env.pathExists p.directory then
      loadProbe env (init_files p.directory name)
    else (false, [])

/-- PlugManager.load boolean result. -/
def load (reg : List (String × PlugConfig)) (env : Env)
    (name : String) : Bool :=
  (loadRun reg env name).1

/-- The prefix of a list up to and including the first element that
satisfies the predicate. -/
def takeThrough (p : α → Bool) : List α → List α
| [] => []
| x :: xs => if p x then [x] else x :: takeThrough p xs

/-- Defaults-only process configuration used by concrete instances. -/
def cfgW : PlugInitConfig :=
  PlugInitConfig.build Option.none Option.none "/root" Option.none
    PyVal.none Option.none

/-- Process configuration with an explicit home of /tmp/h. -/
def cfgH : PlugInitConfig :=
  PlugInitConfig.build Option.none Option.none "/root" (some "/tmp/h")
    PyVal.none Option.none

/-- A stored remote plugin record. -/
def pRemA : PlugConfig :=
  { name := "a", repo := "o/a", autoload := true,
    uri := some "https://git::@github.com/o/a.git", directory := "/tmp/h/a" }

/-- A second stored remote plugin record. -/
def pRemB : PlugConfig :=
  { name := "b", repo := "o/b", autoload := true,
    uri := some "https://git::@github.com/o/b.git", directory := "/tmp/h/b" }

/-- A stored local plugin record, null uri. -/
def pLoc : PlugConfig :=
  { name := "loc", repo := "/opt/loc", autoload := true,
    uri := Option.none, directory := "/opt/loc" }

/-- A registry holding two remote plugins around a local one. -/
def regU : List (String × PlugConfig) :=
  [("a", pRemA), ("loc", pLoc), ("b", pRemB)]

/-- A stored record whose directory is /d, for load instances. -/
def pX : PlugConfig :=
  { name := "x", repo := "o/x", autoload := true,
    uri := some "https://git::@github.com/o/x.git", directory := "/d" }

/-- A one-record registry for load instances. -/
def regL : List (String × PlugConfig) := [("x", pX)]

/-- An effect oracle where the plugin directory and two candidate
files exist, and sourcing succeeds only on the second existing one. -/
def envL : Env :=
  { pathExists := fun s => s == "/d" || s == "/d/x.gdb" || s == "/d/main.py",
    cloneOk := fun _ => true,
    pullOk := fun _ => true,
    sourceOk := fun s => s == "/d/main.py" }

/-- An effect oracle for update instances. -/
def envU : Env :=
  { pathExists := fun s => s == "/tmp/h/a",
    cloneOk := fun _ => true,
    pullOk := fun _ => true,
    sourceOk := fun _ => true }

/-- A prior stored record under the name tool. -/
def pT0 : PlugConfig :=
  { name := "tool", repo := "old/tool", autoload := true,
    uri := some "https://git::@github.com/old/tool.git",
    directory := "/tmp/h/tool" }

/-- The record that re-registering x/tool resolves to under cfgH. -/
def cNew : PlugConfig :=
  { name := "tool", repo := "x/tool", autoload := true,
    uri := some "https://git::@github.com/x/tool.git",
    directory := "/tmp/h/tool" }

/-- C1, counterexample: with both the environment variable and the
explicit constructor argument present, the constructor keeps the
environment value, not the explicit argument, for home and for the
autoload default; the claimed argument-over-environment precedence
fails at this input. -/
theorem build_arg_precedence_cex :
    (PlugInitConfig.build (some "/env/h") (some "0") "/u" (some "/arg/h")
      (PyVal.bool true) Option.none).home = "/env/h"
    ∧ (PlugInitConfig.build (some "/env/h") (some "0") "/u" (some "/arg/h")
      (PyVal.bool true) Option.none).home ≠ "/arg/h"
    ∧ (PlugInitConfig.build (some "/env/h") (some "0") "/u" (some "/arg/h")
      (PyVal.bool true) Option.none).autoload = PyVal.str "0"
    ∧ (PlugInitConfig.build (some "/env/h") (some "0") "/u" (some "/arg/h")
      (PyVal.bool true) Option.none).autoload ≠ PyVal.bool true :=
  ⟨rfl, by decide, rfl, by decide⟩

/-- C1, amended: the process defaults are resolved with precedence
environment variable over explicit constructor argument over built-in
fallback, first non-absent source winning, for home and for the
autoload default. -/
theorem build_env_precedence (envHome envAutoload : Option String)
    (userHome : String) (homeArg : Option String) (autoloadArg : PyVal)
    (uriFmtArg : Option String) :
    (∀ e, envHome = some e →
      (PlugInitConfig.build envHome envAutoload userHome homeArg
        autoloadArg uriFmtArg).home = e)
    ∧ (envHome = Option.none → ∀ h, homeArg = some h →
      (PlugInitConfig.build envHome envAutoload userHome homeArg
        autoloadArg uriFmtArg).home = h)
    ∧ (envHome = Option.none → homeArg = Option.none →
      (PlugInitConfig.build envHome envAutoload userHome homeArg
        autoloadArg uriFmtArg).home = expanduser userHome "~/.config/gdb/plug")
    ∧ (∀ s, envAutoload = some s →
      (PlugInitConfig.build envHome envAutoload userHome homeArg
        autoloadArg uriFmtArg).autoload = PyVal.str s)
    ∧ (envAutoload = Option.none → autoloadArg ≠ PyVal.none →
      (PlugInitConfig.build envHome envAutoload userHome homeArg
        autoloadArg uriFmtArg).autoload = autoloadArg)
    ∧ (envAutoload = Option.none → autoloadArg = PyVal.none →
      (PlugInitConfig.build envHome envAutoload userHome homeArg
        autoloadArg uriFmtArg).autoload = PyVal.bool true) := by
  refine ⟨?_, ?_, ?_, ?_, ?_, ?_⟩
  · rintro e rfl; rfl
  · rintro rfl h rfl; rfl
  · rintro rfl rfl; rfl
  · rintro s rfl; rfl
  · rintro rfl hne
    cases autoloadArg with
    | none => exact absurd rfl hne
    | bool b => rfl
    | int n => rfl
    | str s => rfl
  · rintro rfl rfl; rfl

/-- Witness for the amended C1 theorem at a concrete input with the
environment absent and the explicit arguments present. -/
theorem build_env_precedence_w :
    (PlugInitConfig.build Option.none Option.none "/u" (some "/arg/h")
      (PyVal.bool false) Option.none).home = "/arg/h"
    ∧ (PlugInitConfig.build Option.none Option.none "/u" (some "/arg/h")
      (PyVal.bool false) Option.none).autoload = PyVal.bool false :=
  ⟨(build_env_precedence Option.none Option.none "/u" (some "/arg/h")
      (PyVal.bool false) Option.none).2.1 rfl "/arg/h" rfl,
   (build_env_precedence Option.none Option.none "/u" (some "/arg/h")
      (PyVal.bool false) Option.none).2.2.2.2.1 rfl (by decide)⟩

/-- C2, code evaluated at the failing input: with the process default
autoload true, registering with the explicit strict boolean false
override resolves autoload to true, because the Python or operator
discards the falsy override; the source file itself documents this
declaration shape as a manual-load plugin. -/
theorem infer_config_false_override_ignored :
    infer_config cfgW "x/y" Option.none (PyVal.bool false) Option.none =
    Except.ok { name := "y", repo := "x/y", autoload := true,
                uri := some "https://git::@github.com/x/y.git",
                directory := "/root/.config/gdb/plug/y" } := rfl

/-- Branch analysis of infer_directory_uri: the local branch, the
verbatim-uri branch, the template-expansion branch, and the error
branch together with the exact condition that reaches it. -/
theorem infer_directory_uri_spec (cfg : PlugInitConfig) (name repo : String) :
    (is_local_plug repo = true →
      infer_directory_uri cfg name repo =
        Except.ok { uri := Option.none, directory := rstripSlash repo })
    ∧ (is_local_plug repo = false → pyContains repo ':' = true →
      infer_directory_uri cfg name repo =
        Except.ok { uri := some repo, directory := joinPath cfg.home name })
    ∧ (is_local_plug repo = false → pyContains repo ':' = false →
        pyContains repo '/' = true →
      infer_directory_uri cfg name repo =
        Except.ok { uri := some (pyFormat1 cfg.uri_format repo),
                    directory := joinPath cfg.home name })
    ∧ (infer_directory_uri cfg name repo =
        Except.error ("Invalid argument: " ++ repo) ↔
      (is_local_plug repo = false ∧ pyContains repo ':' = false
        ∧ pyContains repo '/' = false)) := by
  unfold infer_directory_uri
  refine ⟨?_, ?_, ?_, ?_⟩ <;> split_ifs with h1 h2 h3 <;> simp_all

/-- Every error infer_directory_uri produces carries the invalid
argument message and arises exactly from the no-colon no-slash remote
shape. -/
theorem infer_directory_uri_error_msg (cfg : PlugInitConfig)
    (name repo : String) (e : String)
    (h : infer_directory_uri cfg name repo = Except.error e) :
    e = "Invalid argument: " ++ repo ∧ is_local_plug repo = false
      ∧ pyContains repo ':' = false ∧ pyContains repo '/' = false := by
  unfold infer_directory_uri at h
  split_ifs at h with h1 h2 h3
  simp_all

/-- C3: a registered local plugin, one whose stored uri is null,
terminates the whole update batch: the batch over any names after it
equals the batch truncated right after it, and the events from it
onward are the single local no-op. -/
theorem update_local_halts_batch (reg : List (String × PlugConfig))
    (env : Env) (pre post : List String) (n : String) (p : PlugConfig)
    (h1 : dictGet reg n = some p) (h2 : p.uri = Option.none) :
    update reg env (some (pre ++ n :: post)) =
      update reg env (some (pre ++ [n]))
    ∧ updateGo reg env (n :: post) = [UpdateEvent.localNoop] := by
  have hgo : ∀ post2 : List String,
      updateGo reg env (n :: post2) = [UpdateEvent.localNoop] := by
    intro post2
    simp [updateGo, h1, h2]
  have key : ∀ pre2 : List String,
      updateGo reg env (pre2 ++ n :: post) = updateGo reg env (pre2 ++ [n]) := by
    intro pre2
    induction pre2 with
    | nil => simp only [List.nil_append]; rw [hgo post, hgo []]
    | cons a as ih =>
      simp only [List.cons_append, updateGo]
      cases hq : dictGet reg a with
      | none => simp [ih]
      | some q =>
        cases hu : q.uri with
        | none => simp [hu]
        | some u => simp [hu, ih]
  constructor
  · have h3 : (pre ++ n :: post).isEmpty = false := by cases pre <;> rfl
    have h4 : (pre ++ [n]).isEmpty = false := by cases pre <;> rfl
    simp only [update, updateNames, h3, h4, Bool.false_eq_true, if_false]
    exact key pre
  · exact hgo post

/-- Witness for C3 at a registry holding a local plugin between two
remote ones. -/
theorem update_local_halts_batch_w :
    update regU envU (some (["a"] ++ "loc" :: ["b"])) =
      update regU envU (some (["a"] ++ ["loc"]))
    ∧ updateGo regU envU ("loc" :: ["b"]) = [UpdateEvent.localNoop] :=
  update_local_halts_batch regU envU ["a"] ["b"] "loc" pLoc (by decide) rfl

/-- C4, counterexample: the token Foo is equal to the applicable tag
Foo, even letter for letter, yet the policy string Foo over the tag
list holding Foo resolves to false, because the code lowercases the
token and then compares it with the tag verbatim; the claimed
case-insensitive match on both sides fails here. -/
theorem autoload_tag_case_cex :
    infer_bool_bygroup (PyVal.str "Foo") ["Foo"] = false
    ∧ ¬ infer_bool_bygroup (PyVal.str "Foo") ["Foo"] = true := by
  exact ⟨by decide, by decide⟩

/-- C4, amended: a token is lowercased and then compared with each tag
verbatim: over a single applicable tag, a one-token policy string
resolves to true exactly when its lowercased form is all, true, 1 or
the tag itself, and is none of none, false, 0 or the minus-prefixed
tag. Matching is therefore case-insensitive in the token only; a tag
holding an uppercase letter is never matched, as the concrete
instances show. -/
theorem autoload_token_lowered_amended :
    (∀ x g : String, pySplitChar x ',' = [x] →
      (infer_bool_bygroup (PyVal.str x) [g] = true ↔
        ((pyLower x = "all" ∨ pyLower x = "true" ∨ pyLower x = "1"
            ∨ pyLower x = g)
         ∧ ¬(pyLower x = "none" ∨ pyLower x = "false" ∨ pyLower x = "0"
            ∨ pyLower x = "-" ++ g))))
    ∧ infer_bool_bygroup (PyVal.str "FOO") ["foo"] = true
    ∧ infer_bool_bygroup (PyVal.str "foo") ["Foo"] = false
    ∧ infer_bool_bygroup (PyVal.str "all,-FOO") ["foo"] = false
    ∧ infer_bool_bygroup (PyVal.str "all,-foo") ["FOO"] = true := by
  refine ⟨?_, by decide, by decide, by decide, by decide⟩
  intro x g hx
  simp only [infer_bool_bygroup, hx, List.foldl, boolGroupStep, strIn,
    List.map_cons, List.map_nil, List.cons_append, List.nil_append]
  split_ifs with h1 h2 <;> simp_all [beq_iff_eq]

/-- Witness for the amended C4 theorem at a mixed-case token over a
lowercase tag. -/
theorem autoload_token_lowered_amended_w :
    infer_bool_bygroup (PyVal.str "TrUe") ["foo"] = true :=
  (autoload_token_lowered_amended.1 "TrUe" "foo" (by decide)).mpr (by decide)

/-- C5: string-policy evaluation splits on commas and folds the token
step over the tokens in order starting from false; the two concrete
policies show order sensitivity, an unrecognized token leaves the
running value unchanged, and a recognized final token forces the
result regardless of everything before it. -/
theorem autoload_order_sensitive :
    infer_bool_bygroup (PyVal.str "all,-foo") ["foo"] = false
    ∧ infer_bool_bygroup (PyVal.str "-foo,all") ["foo"] = true
    ∧ (∀ s groups, infer_bool_bygroup (PyVal.str s) groups =
        (pySplitChar s ',').foldl (boolGroupStep groups) false)
    ∧ (∀ groups (ret : Bool) x,
        strIn (pyLower x) (["all", "true", "1"] ++ groups) = false →
        strIn (pyLower x)
          (["none", "false", "0"] ++ groups.map (fun g => "-" ++ g)) = false →
        boolGroupStep groups ret x = ret)
    ∧ (∀ groups (init : Bool) toks x,
        strIn (pyLower x) (["all", "true", "1"] ++ groups) = true →
        strIn (pyLower x)
          (["none", "false", "0"] ++ groups.map (fun g => "-" ++ g)) = false →
        (toks ++ [x]).foldl (boolGroupStep groups) init = true)
    ∧ (∀ groups (init : Bool) toks x,
        strIn (pyLower x)
          (["none", "false", "0"] ++ groups.map (fun g => "-" ++ g)) = true →
        (toks ++ [x]).foldl (boolGroupStep groups) init = false) := by
  refine ⟨by decide, by decide, fun _ _ => rfl, ?_, ?_, ?_⟩
  · intro groups ret x h1 h2
    simp only [List.cons_append, List.nil_append] at h1 h2
    simp [boolGroupStep, h1, h2]
  · intro groups init toks x h1 h2
    simp only [List.cons_append, List.nil_append] at h1 h2
    rw [List.foldl_append]
    simp [boolGroupStep, h1, h2]
  · intro groups init toks x h1
    simp only [List.cons_append, List.nil_append] at h1
    rw [List.foldl_append]
    simp [boolGroupStep, h1]

/-- Witness for C5: a final recognized enable token overrides the
earlier disable token. -/
theorem autoload_order_sensitive_w :
    (["-foo"] ++ ["all"]).foldl (boolGroupStep ["foo"]) false = true :=
  autoload_order_sensitive.2.2.2.2.1 ["foo"] false ["-foo"] "all"
    (by decide) (by decide)

/-- The probe loop succeeds exactly when some candidate both exists
and sources, and the files it sources are the existing candidates up
to and including the first one that sources successfully. -/
theorem loadProbe_spec (env : Env) : ∀ fs : List String,
    (loadProbe env fs).1 =
      fs.any (fun f => env.pathExists f && env.sourceOk f)
    ∧ (loadProbe env fs).2 =
      takeThrough env.sourceOk (fs.filter env.pathExists) := by
  intro fs
  induction fs with
  | nil => exact ⟨rfl, rfl⟩
  | cons f rest ih =>
    by_cases he : env.pathExists f
    · by_cases hs : env.sourceOk f
      · exact ⟨by simp [loadProbe, takeThrough, he, hs],
               by simp [loadProbe, takeThrough, he, hs]⟩
      · exact ⟨by simp [loadProbe, takeThrough, he, hs, ih.1],
               by simp [loadProbe, takeThrough, he, hs, ih.2]⟩
    · exact ⟨by simp [loadProbe, takeThrough, he, ih.1],
             by simp [loadProbe, takeThrough, he, ih.2]⟩

/-- C6: for a registered name whose directory exists, load returns
true exactly when some candidate initialization file in the fixed
probe order exists and sources without raising, and the files actually
sourced are the existing candidates up to and including the first
successful one: a sourcing failure continues probing, a success stops
it. -/
theorem load_first_success (reg : List (String × PlugConfig)) (env : Env)
    (name : String) (p : PlugConfig)
    (h1 : dictGet reg name = some p)
    (h2 : env.pathExists p.directory = true) :
    (load reg env name = true ↔
      ∃ f ∈ init_files p.directory name,
        env.pathExists f = true ∧ env.sourceOk f = true)
    ∧ (loadRun reg env name).2 =
      takeThrough env.sourceOk
        ((init_files p.directory name).filter env.pathExists) := by
  have hrun : loadRun reg env name =
      loadProbe env (init_files p.directory name) := by
    simp [loadRun, h1, h2]
  constructor
  · rw [load, hrun, (loadProbe_spec env (init_files p.directory name)).1]
    simp [List.any_eq_true, Bool.and_eq_true]
  · rw [hrun, (loadProbe_spec env (init_files p.directory name)).2]

/-- Witness for C6 at a registry and oracle where the first existing
candidate fails to source and the next existing one succeeds. -/
theorem load_first_success_w :
    (load regL envL "x" = true ↔
      ∃ f ∈ init_files pX.directory "x",
        envL.pathExists f = true ∧ envL.sourceOk f = true)
    ∧ (loadRun regL envL "x").2 =
      takeThrough envL.sourceOk
        ((init_files pX.directory "x").filter envL.pathExists) :=
  load_first_success regL envL "x" pX (by decide) (by decide)

/-- C7: plug raises the invalid-declaration ValueError exactly when
the repo string is classified remote and holds neither a colon nor a
slash; in that case the raise happens inside resolution before the
dict assignment, so the registry after the call is unchanged; in every
other case the call stores a record and returns normally. -/
theorem plug_invalid_declaration (cfg : PlugInitConfig)
    (reg : List (String × PlugConfig)) (repo : String)
    (nameArg : Option String) (autoloadArg : PyVal)
    (groupsArg : Option (List String)) :
    (plug cfg reg repo nameArg autoloadArg groupsArg =
        Except.error ("Invalid argument: " ++ repo) ↔
      (is_local_plug repo = false ∧ pyContains repo ':' = false
        ∧ pyContains repo '/' = false))
    ∧ ((is_local_plug repo = false ∧ pyContains repo ':' = false
        ∧ pyContains repo '/' = false) →
      registryAfter cfg reg repo nameArg autoloadArg groupsArg = reg)
    ∧ (¬(is_local_plug repo = false ∧ pyContains repo ':' = false
        ∧ pyContains repo '/' = false) →
      ∃ r, plug cfg reg repo nameArg autoloadArg groupsArg = Except.ok r) := by
  have hspec := infer_directory_uri_spec cfg (resolvedName repo nameArg) repo
  cases hdu : infer_directory_uri cfg (resolvedName repo nameArg) repo with
  | ok du =>
    have hplug : plug cfg reg repo nameArg autoloadArg groupsArg =
        Except.ok (dictSet reg (resolvedName repo nameArg)
          { name := resolvedName repo nameArg, repo := repo,
            autoload := infer_bool_bygroup (pyOr autoloadArg cfg.autoload)
              (resolvedName repo nameArg :: resolvedGroups groupsArg),
            uri := du.uri, directory := du.directory }) := by
      unfold plug infer_config
      simp only [hdu]
    have hnotc : ¬(is_local_plug repo = false ∧ pyContains repo ':' = false
        ∧ pyContains repo '/' = false) := by
      intro hc
      rw [hspec.2.2.2.mpr hc] at hdu
      exact Except.noConfusion hdu
    refine ⟨?_, ?_, ?_⟩
    · rw [hplug]
      constructor
      · intro h; exact Except.noConfusion h
      · intro hc; exact absurd hc hnotc
    · intro hc; exact absurd hc hnotc
    · intro _; exact ⟨_, hplug⟩
  | error e =>
    have hmsg := infer_directory_uri_error_msg cfg (resolvedName repo nameArg)
      repo e hdu
    have hplug : plug cfg reg repo nameArg autoloadArg groupsArg =
        Except.error e := by
      unfold plug infer_config
      simp only [hdu]
    refine ⟨?_, ?_, ?_⟩
    · rw [hplug, hmsg.1]
      exact ⟨fun _ => hmsg.2, fun _ => rfl⟩
    · intro _
      unfold registryAfter
      rw [hplug]
    · intro hc; exact absurd hmsg.2 hc

/-- Witness for C7 at the remote repo string foo, which holds neither
a colon nor a slash: the registry stays empty. -/
theorem plug_invalid_declaration_w :
    registryAfter cfgW [] "foo" Option.none PyVal.none Option.none = [] :=
  (plug_invalid_declaration cfgW [] "foo" Option.none PyVal.none
    Option.none).2.1 (by decide)

/-- C8: every remote declaration without a colon but with a slash
resolves to the record whose uri is the configured template with its
placeholder replaced by the whole repo string and whose directory is
home joined with the resolved name; the end-to-end instance registers
owner/tool under home /tmp/h with defaults. -/
theorem owner_name_expansion :
    (∀ (cfg : PlugInitConfig) (repo : String) (nameArg : Option String)
      (autoloadArg : PyVal) (groupsArg : Option (List String)),
      is_local_plug repo = false → pyContains repo ':' = false →
      pyContains repo '/' = true →
      infer_config cfg repo nameArg autoloadArg groupsArg =
        Except.ok { name := resolvedName repo nameArg, repo := repo,
                    autoload := infer_bool_bygroup
                      (pyOr autoloadArg cfg.autoload)
                      (resolvedName repo nameArg :: resolvedGroups groupsArg),
                    uri := some (pyFormat1 cfg.uri_format repo),
                    directory := joinPath cfg.home (resolvedName repo nameArg) })
    ∧ infer_config cfgH "owner/tool" Option.none PyVal.none Option.none =
      Except.ok { name := "tool", repo := "owner/tool", autoload := true,
                  uri := some "https://git::@github.com/owner/tool.git",
                  directory := "/tmp/h/tool" } := by
  constructor
  · intro cfg repo nameArg autoloadArg groupsArg h1 h2 h3
    have hdu := (infer_directory_uri_spec cfg (resolvedName repo nameArg)
      repo).2.2.1 h1 h2 h3
    unfold infer_config
    simp only [hdu]
  · rfl

/-- Witness for C8 at the shorthand o/t over the default process
configuration. -/
theorem owner_name_expansion_w :
    infer_config cfgW "o/t" Option.none PyVal.none Option.none =
      Except.ok { name := resolvedName "o/t" Option.none, repo := "o/t",
                  autoload := infer_bool_bygroup (pyOr PyVal.none cfgW.autoload)
                    (resolvedName "o/t" Option.none ::
                      resolvedGroups Option.none),
                  uri := some (pyFormat1 cfgW.uri_format "o/t"),
                  directory := joinPath cfgW.home
                    (resolvedName "o/t" Option.none) } :=
  owner_name_expansion.1 cfgW "o/t" Option.none PyVal.none Option.none
    (by decide) (by decide) (by decide)

/-- C9: the source classifier agrees with the specified local
filesystem-path shape on every string; a local repo resolves to a null
uri with the trailing-slash-stripped path as directory; every other
repo string goes down the remote branches, producing either the
invalid-argument error or a non-null uri under home. -/
theorem local_classification :
    (∀ repo, is_local_plug repo = localShapeSpec repo)
    ∧ (∀ (cfg : PlugInitConfig) (name repo : String),
        is_local_plug repo = true →
        infer_directory_uri cfg name repo =
          Except.ok { uri := Option.none, directory := rstripSlash repo })
    ∧ (∀ (cfg : PlugInitConfig) (name repo : String),
        is_local_plug repo = false →
        (infer_directory_uri cfg name repo =
            Except.error ("Invalid argument: " ++ repo))
        ∨ (∃ u, infer_directory_uri cfg name repo =
            Except.ok { uri := some u,
                        directory := joinPath cfg.home name })) := by
  refine ⟨?_, ?_, ?_⟩
  · intro repo
    rcases hl : repo.data with _ | ⟨c1, _ | ⟨c2, rest⟩⟩ <;>
      simp [is_local_plug, localShapeSpec, String.toList, hl, Bool.or_assoc]
  · intro cfg name repo h
    exact (infer_directory_uri_spec cfg name repo).1 h
  · intro cfg name repo h
    by_cases hc : pyContains repo ':'
    · exact Or.inr ⟨repo, (infer_directory_uri_spec cfg name repo).2.1 h hc⟩
    · by_cases hs : pyContains repo '/'
      · exact Or.inr ⟨pyFormat1 cfg.uri_format repo,
          (infer_directory_uri_spec cfg name repo).2.2.1 h
            (by simpa using hc) hs⟩
      · exact Or.inl ((infer_directory_uri_spec cfg name repo).2.2.2.mpr
          ⟨h, by simpa using hc, by simpa using hs⟩)

/-- Witness for C9 at a local path with a trailing slash. -/
theorem local_classification_w :
    infer_directory_uri cfgW "n" "/opt/p/" =
      Except.ok { uri := Option.none, directory := rstripSlash "/opt/p/" } :=
  local_classification.2.1 cfgW "n" "/opt/p/" (by decide)

/-- Looking up the assigned key after a dict assignment returns the
assigned value. -/
theorem dictGet_dictSet_self (reg : List (String × PlugConfig))
    (k : String) (v : PlugConfig) :
    dictGet (dictSet reg k v) k = some v := by
  induction reg with
  | nil => simp [dictSet, dictGet]
  | cons hd t ih =>
    obtain ⟨k1, v1⟩ := hd
    by_cases hk : k1 = k
    · subst hk; simp [dictSet, dictGet]
    · simp [dictSet, dictGet, hk, ih]

/-- A dict assignment leaves every other key unchanged. -/
theorem dictGet_dictSet_ne (reg : List (String × PlugConfig))
    (k k2 : String) (v : PlugConfig) (h : k2 ≠ k) :
    dictGet (dictSet reg k v) k2 = dictGet reg k2 := by
  have h' : ¬(k = k2) := fun hh => h hh.symm
  induction reg with
  | nil => simp [dictSet, dictGet, h']
  | cons hd t ih =>
    obtain ⟨k1, v1⟩ := hd
    by_cases hk : k1 = k
    · subst hk; simp [dictSet, dictGet, h']
    · by_cases hk2 : k1 = k2
      · subst hk2; simp [dictSet, dictGet, hk]
      · simp [dictSet, dictGet, hk, hk2, ih]

/-- The key sequence after a dict assignment: unchanged when the key
was present, extended by the key at the end otherwise. -/
theorem dictSet_keys (reg : List (String × PlugConfig))
    (k : String) (v : PlugConfig) :
    (dictSet reg k v).map Prod.fst =
      if (reg.map Prod.fst).contains k then reg.map Prod.fst
      else reg.map Prod.fst ++ [k] := by
  induction reg with
  | nil => simp [dictSet]
  | cons hd t ih =>
    obtain ⟨k1, v1⟩ := hd
    by_cases hk : k1 = k
    · subst hk; simp [dictSet, List.contains_cons]
    · have hk2 : ¬(k = k1) := fun hh => hk hh.symm
      simp [dictSet, hk, hk2, ih, List.contains_cons]
      split_ifs <;> simp_all

/-- Dict assignment preserves distinctness of the keys. -/
theorem dictSet_keys_nodup (reg : List (String × PlugConfig))
    (k : String) (v : PlugConfig)
    (h : (reg.map Prod.fst).Nodup) :
    ((dictSet reg k v).map Prod.fst).Nodup := by
  rw [dictSet_keys]
  by_cases hc : (reg.map Prod.fst).contains k
  · rw [if_pos hc]; exact h
  · rw [if_neg hc]
    have hk : k ∉ reg.map Prod.fst := by
      simpa [List.elem_eq_mem] using hc
    simp [List.nodup_append, h, hk]

/-- C10: a successful registration stores exactly the resolved record
under its resolved name: the new registry is the dict assignment of
the old one, keys stay distinct, the resolved name maps to the whole
new record, every other name is untouched, and the key sequence is
unchanged when the name was already registered and grows by exactly
that name otherwise. -/
theorem registry_overwrite (cfg : PlugInitConfig)
    (reg reg2 : List (String × PlugConfig)) (repo : String)
    (nameArg : Option String) (autoloadArg : PyVal)
    (groupsArg : Option (List String)) (c : PlugConfig)
    (hnd : (reg.map Prod.fst).Nodup)
    (hok : infer_config cfg repo nameArg autoloadArg groupsArg = Except.ok c)
    (hreg : plug cfg reg repo nameArg autoloadArg groupsArg = Except.ok reg2) :
    reg2 = dictSet reg c.name c
    ∧ (reg2.map Prod.fst).Nodup
    ∧ dictGet reg2 c.name = some c
    ∧ (∀ k, k ≠ c.name → dictGet reg2 k = dictGet reg k)
    ∧ ((reg.map Prod.fst).contains c.name = true →
        reg2.map Prod.fst = reg.map Prod.fst)
    ∧ ((reg.map Prod.fst).contains c.name = false →
        reg2.map Prod.fst = reg.map Prod.fst ++ [c.name]) := by
  have heq : reg2 = dictSet reg c.name c := by
    unfold plug at hreg
    rw [hok] at hreg
    injection hreg with h
    exact h.symm
  subst heq
  refine ⟨rfl, dictSet_keys_nodup reg c.name c hnd,
    dictGet_dictSet_self reg c.name c,
    fun k hk => dictGet_dictSet_ne reg c.name k c hk, ?_, ?_⟩
  · intro hc; rw [dictSet_keys, if_pos hc]
  · intro hc; rw [dictSet_keys, if_neg (by rw [hc]; simp)]

/-- Witness for C10: re-registering the name tool replaces the prior
record entirely and keeps a single key. -/
theorem registry_overwrite_w :
    dictGet [("tool", cNew)] cNew.name = some cNew
    ∧ ([("tool", cNew)] : List (String × PlugConfig)).map Prod.fst =
      ([("tool", pT0)] : List (String × PlugConfig)).map Prod.fst :=
  ⟨(registry_overwrite cfgH [("tool", pT0)] [("tool", cNew)] "x/tool"
      Option.none PyVal.none Option.none cNew (by decide) rfl rfl).2.2.1,
   (registry_overwrite cfgH [("tool", pT0)] [("tool", cNew)] "x/tool"
      Option.none PyVal.none Option.none cNew (by decide) rfl rfl).2.2.2.2.1
     (by decide)⟩
